import Mathlib

/-!
Verification of the particle-simulation core of a VR fire-extinguisher
training scene (fire/smoke particle systems, foam spray, and the
foam-to-fire suppression coupling).

The JavaScript source is embedded shallowly:
* machine floats are modelled by `ℚ` (the simulation uses only +, -, *, /,
  `Math.min` / `Math.max` / `Math.abs` / `Math.sign` / `Math.floor`);
* every `Math.random()` draw, and every derived quantity whose computation
  needs transcendental functions (`cos`/`sin` of a sampled angle, a
  normalized direction inside the spray cone), is an explicit input to the
  embedded function — the simulation code never branches on how those
  numbers were produced;
* mutation of component state becomes explicit state passing
  (`FoamState`, `FireState`, per-system records).
-/

namespace FireVR

/-- Shallow model of `THREE.Vector3` (only the operations the simulation
uses). -/
structure Vec3 where
  x : ℚ
  y : ℚ
  z : ℚ
deriving DecidableEq, Repr

/-- Vector addition `v.add(w)`, componentwise. -/
def Vec3.add (a b : Vec3) : Vec3 := ⟨a.x + b.x, a.y + b.y, a.z + b.z⟩

/-- Scalar multiplication `v.multiplyScalar(s)`. -/
def Vec3.scale (s : ℚ) (a : Vec3) : Vec3 := ⟨s * a.x, s * a.y, s * a.z⟩

/-- Fused update `v.addScaledVector(w, s)`. -/
def Vec3.addScaled (a w : Vec3) (s : ℚ) : Vec3 :=
  ⟨a.x + w.x * s, a.y + w.y * s, a.z + w.z * s⟩

/-- Squared distance `v.distanceToSquared(w)` (`dx*dx + dy*dy + dz*dz`). -/
def Vec3.distanceToSquared (a b : Vec3) : ℚ :=
  (a.x - b.x) * (a.x - b.x) + (a.y - b.y) * (a.y - b.y) +
    (a.z - b.z) * (a.z - b.z)

/-- Shallow model of `THREE.Color` (an RGB triple). -/
structure Color where
  r : ℚ
  g : ℚ
  b : ℚ
deriving DecidableEq, Repr

/-- Color lerp `c.lerp(target, alpha)`: componentwise `c + (target - c) * alpha`,
exactly as `THREE.Color.lerp` computes it. -/
def Color.lerp (c target : Color) (alpha : ℚ) : Color :=
  ⟨c.r + (target.r - c.r) * alpha,
   c.g + (target.g - c.g) * alpha,
   c.b + (target.b - c.b) * alpha⟩

/-- JS `Math.sign` (0 at 0, as in JS for our purposes). -/
def msign (q : ℚ) : ℚ := if 0 < q then 1 else if q < 0 then -1 else 0

/-! ## Linear spline (`getLinearSpline` in the fire-system source)

The source builds a closure holding a `points` array of `[t, value]`
pairs and a caller-supplied `lerp`.  `getValueAt(t)` scans for the first
point whose `t`-coordinate is `≥ t` (`p1` ends as the index of the last
point strictly below `t`, or `0`), takes `p2 = min(length-1, p1+1)` and
either returns the single point's value (`p1 == p2`) or interpolates. -/

/-- The scalar lerp the source passes for alpha/size splines:
`(t, a, b) => a + t * (b - a)`. -/
def lerpScalar (t a b : ℚ) : ℚ := a + t * (b - a)

/-- The color lerp the source passes for color splines:
`(t, a, b) => a.clone().lerp(b, t)`. -/
def colorLerpFn (t : ℚ) (a b : Color) : Color := a.lerp b t

/-- The `getValueAt(t)` closure of `getLinearSpline`.  `List.findIdx` returns the
index of the first point with `t ≤ tᵢ` (the loop's break index), or the
length when no point qualifies; natural subtraction makes `p1` equal to
the source's loop result in all three cases (break at 0, break at `k ≥ 1`,
no break). -/
def getValueAt {α : Type} (lerpFn : ℚ → α → α → α) (dflt : α)
    (points : List (ℚ × α)) (t : ℚ) : α :=
  let k := points.findIdx (fun q => decide (t ≤ q.1))
  let p1 := k - 1
  let p2 := min (points.length - 1) (p1 + 1)
  if p1 = p2 then (points.getD p1 (0, dflt)).2
  else
    let q1 := points.getD p1 (0, dflt)
    let q2 := points.getD p2 (0, dflt)
    lerpFn ((t - q1.1) / (q2.1 - q1.1)) q1.2 q2.2

/-! ## Foam system (`foam-system.js`)

A fixed pool of particle records; `active` flags which slots are live.
Every `Math.random()` draw of `_spawn`, and the cone direction /
nozzle-offset vectors whose construction needs trigonometry and
normalization, appear as fields of `FoamSpawnRand`. -/

/-- One slot of the foam particle pool. -/
structure FoamParticle where
  active : Bool
  pos : Vec3
  vel : Vec3
  life : ℚ
  maxLife : ℚ
  sizeStart : ℚ
  sizeEnd : ℚ
  angle : ℚ
  spin : ℚ
  grounded : Bool
  groundTime : ℚ
deriving DecidableEq, Repr

/-- Fallback record for `getD` (never reached by in-range indices). -/
def defFoamParticle : FoamParticle :=
  { active := false, pos := ⟨0, 0, 0⟩, vel := ⟨0, 0, 0⟩, life := 0,
    maxLife := 1, sizeStart := 0, sizeEnd := 0, angle := 0, spin := 0,
    grounded := false, groundTime := 0 }

/-- The `foam-system` schema values the simulation reads
(`rate`, `speed`, physics coefficients, floor data...). -/
structure FoamData where
  rate : ℚ
  speed : ℚ
  life : ℚ
  sizeStart : ℚ
  sizeEnd : ℚ
  gravity : ℚ
  drag : ℚ
  opacity : ℚ
  floorY : ℚ
  groundSpread : ℚ
  groundDrag : ℚ
  groundBounce : ℚ
  groundSizeScale : ℚ
  turbulence : ℚ
  spreadGrowth : ℚ
deriving DecidableEq, Repr

/-- Mutable component state of `foam-system`: the emission gate, the
fractional spawn accumulator and the particle pool. -/
structure FoamState where
  emitting : Bool
  spawnAcc : ℚ
  particles : List FoamParticle

/-- The `start()` method — sets only the emission gate. -/
def foamStart (s : FoamState) : FoamState := { s with emitting := true }

/-- The `stop()` method — clears only the emission gate. -/
def foamStop (s : FoamState) : FoamState := { s with emitting := false }

/-- The random draws consumed when `_spawn` fills one slot.  `posOffset`
is the nozzle-radius offset and `dir` the normalized cone direction (both
need `cos`/`sin`/`normalize`, so they enter as inputs); the remaining
fields are raw `Math.random()` values in `[0,1]` except `angleV`, which
stands for the sampled billboard angle `Math.random() * 2π`. -/
structure FoamSpawnRand where
  posOffset : Vec3
  dir : Vec3
  speedR : ℚ
  lifeR : ℚ
  sizeStartR : ℚ
  sizeEndR : ℚ
  angleV : ℚ
  spinR : ℚ

/-- The field values `_spawn` writes into an acquired slot
(lines 144–173 of `foam-system.js`). -/
def mkFoamSpawned (d : FoamData) (origin : Vec3) (r : FoamSpawnRand) :
    FoamParticle :=
  let life := d.life * (17 / 20 + r.lifeR * (3 / 10))
  { active := true
    pos := origin.add r.posOffset
    vel := Vec3.scale (d.speed * (9 / 10 + r.speedR * (1 / 5))) r.dir
    life := life
    maxLife := life
    sizeStart := d.sizeStart * (4 / 5 + r.sizeStartR * (2 / 5))
    sizeEnd := d.sizeEnd * (4 / 5 + r.sizeEndR * (2 / 5))
    angle := r.angleV
    spin := (r.spinR - 1 / 2) * 2
    grounded := false
    groundTime := 0 }

/-- The `_getSlot()` lookup plus in-place fill: replace the first inactive slot by `q`;
`none` models `_getSlot` returning `null` (pool exhausted). -/
def setFirstInactive (q : FoamParticle) :
    List FoamParticle → Option (List FoamParticle)
  | [] => none
  | p :: ps =>
    if p.active then (setFirstInactive q ps).map (p :: ·)
    else some (q :: ps)

/-- The spawn loop of `_spawn`: one pool update per requested particle,
breaking as soon as no slot is free. -/
def foamSpawnList : List FoamParticle → List FoamParticle → List FoamParticle
  | [], pool => pool
  | q :: qs, pool =>
    match setFirstInactive q pool with
    | none => pool
    | some pool' => foamSpawnList qs pool'

/-- The accumulator arithmetic of `_spawn` (lines 120–123):
`acc += rate * dt; count = floor(acc); if (!count) return; acc -= count`.
Returns the new accumulator and the spawn count. -/
def foamEmit (rate dt acc : ℚ) : ℚ × ℤ :=
  let a := acc + rate * dt
  let n := ⌊a⌋
  if n = 0 then (a, 0) else (a - n, n)

/-- The `_spawn(dt)` step: accumulator update plus slot activation. -/
def foamSpawn (d : FoamData) (dt : ℚ) (origin : Vec3)
    (rnds : Nat → FoamSpawnRand) (s : FoamState) : FoamState :=
  let en := foamEmit d.rate dt s.spawnAcc
  { s with
    spawnAcc := en.1
    particles :=
      foamSpawnList
        ((List.range en.2.toNat).map (fun i => mkFoamSpawned d origin (rnds i)))
        s.particles }

/-- Per-particle, per-tick random draws of `_simulate`: three turbulence
draws, two late-life spread draws, and the cosine/sine of the random
ground-impact spread angle. -/
structure FoamSimRand where
  turbX : ℚ
  turbY : ℚ
  turbZ : ℚ
  sprX : ℚ
  sprZ : ℚ
  angC : ℚ
  angS : ℚ

/-- Airborne velocity update (gravity, drag, turbulence, late-life
lateral spread) — the value of `p.vel` just before position integration.
`p.life` is already decremented, as in the source. -/
def foamAirVel (d : FoamData) (dt : ℚ) (r : FoamSimRand)
    (p : FoamParticle) : Vec3 :=
  let age := 1 - p.life / p.maxLife
  let v1 : Vec3 := ⟨p.vel.x, p.vel.y + d.gravity * dt, p.vel.z⟩
  let damp := max 0 (1 - d.drag * dt)
  let v2 := Vec3.scale damp v1
  let v3 : Vec3 :=
    if 0 < d.turbulence then
      let t := d.turbulence * dt
      ⟨v2.x + (r.turbX - 1 / 2) * t * 2,
       v2.y + (r.turbY - 1 / 2) * t,
       v2.z + (r.turbZ - 1 / 2) * t * 2⟩
    else v2
  if 0 < d.spreadGrowth ∧ 1 / 4 < age then
    let sf := d.spreadGrowth * (age - 1 / 4) * dt
    ⟨v3.x + (r.sprX - 1 / 2) * sf * 2, v3.y,
     v3.z + (r.sprZ - 1 / 2) * sf * 2⟩
  else v3

/-- Airborne phase of `_simulate` (position integration plus the floor
collision that converts vertical momentum into horizontal spread). -/
def foamAirStep (d : FoamData) (dt : ℚ) (r : FoamSimRand)
    (p : FoamParticle) : FoamParticle :=
  let vel := foamAirVel d dt r p
  let pos := p.pos.addScaled vel dt
  if pos.y ≤ d.floorY then
    let impactSpeed := |vel.y|
    let spreadSpeed := impactSpeed * d.groundSpread * (3 / 10)
    { p with
      pos := ⟨pos.x, d.floorY + 1 / 200, pos.z⟩
      grounded := true
      vel := ⟨vel.x + r.angC * spreadSpeed,
              impactSpeed * d.groundBounce,
              vel.z + r.angS * spreadSpeed⟩ }
  else { p with pos := pos, vel := vel }

/-- Grounded phase of `_simulate`: vertical velocity forced to 0, high
horizontal drag, position pinned just above the floor. -/
def foamGroundStep (d : FoamData) (dt : ℚ) (p : FoamParticle) :
    FoamParticle :=
  let gDamp := max 0 (1 - d.groundDrag * dt)
  let vel : Vec3 := ⟨p.vel.x * gDamp, 0, p.vel.z * gDamp⟩
  let pos0 := p.pos.addScaled vel dt
  { p with
    groundTime := p.groundTime + dt
    vel := vel
    pos := ⟨pos0.x, d.floorY + 1 / 200, pos0.z⟩ }

/-- One particle's `_simulate` body: life decrement, expiry, phase step,
then rotation update (`angle += spin * dt; spin *= 1 - 0.5 * dt`). -/
def foamSimulateP (d : FoamData) (dt : ℚ) (r : FoamSimRand)
    (p : FoamParticle) : FoamParticle :=
  if p.active = false then p
  else
    let life := p.life - dt
    if life ≤ 0 then { p with life := life, active := false }
    else
      let q :=
        if p.grounded then foamGroundStep d dt { p with life := life }
        else foamAirStep d dt r { p with life := life }
      { q with angle := q.angle + q.spin * dt, spin := q.spin * (1 - dt / 2) }

/-- The `_simulate` loop over the pool; the index threads the per-particle random
draws. -/
def foamSimulateFrom (d : FoamData) (dt : ℚ) (rnds : Nat → FoamSimRand) :
    Nat → List FoamParticle → List FoamParticle
  | _, [] => []
  | i, p :: ps =>
    foamSimulateP d dt (rnds i) p :: foamSimulateFrom d dt rnds (i + 1) ps

/-- The `_simulate(dt)` pass on the whole pool. -/
def foamSimulate (d : FoamData) (dt : ℚ) (rnds : Nat → FoamSimRand)
    (ps : List FoamParticle) : List FoamParticle :=
  foamSimulateFrom d dt rnds 0 ps

/-- Number of active (live) slots. -/
def activeCount (ps : List FoamParticle) : Nat :=
  (ps.filter (fun p => p.active)).length

/-- Number of free slots. -/
def inactiveCount (ps : List FoamParticle) : Nat :=
  (ps.filter (fun p => !p.active)).length

/-- Does `_getSlot()` have a slot to hand out? -/
def foamHasFreeSlot (ps : List FoamParticle) : Bool :=
  ps.any (fun p => !p.active)

/-- One vertex record written by `_updateGeometry` (position, size,
alpha, angle buffers). -/
structure FoamGeom where
  pos : Vec3
  size : ℚ
  alpha : ℚ
  angle : ℚ
deriving DecidableEq, Repr

/-- The buffer values `_updateGeometry` computes for one active particle:
smoothstep size curve, grounded puddle growth, phase-dependent alpha
curve with a final clamp to `[0,1]`. -/
def foamGeomEntry (d : FoamData) (p : FoamParticle) : FoamGeom :=
  let age := 1 - p.life / p.maxLife
  let t := age * age * (3 - 2 * age)
  let size0 := p.sizeStart + (p.sizeEnd - p.sizeStart) * t
  let size :=
    if p.grounded then
      size0 * (1 + (d.groundSizeScale - 1) * min (p.groundTime * 2) 1)
    else size0
  let alpha :=
    if age < 3 / 100 then d.opacity * (age / (3 / 100))
    else if p.grounded then
      d.opacity * min 1 (p.life / p.maxLife * (5 / 2)) * (85 / 100)
    else if 3 / 5 < age then d.opacity * (1 - (age - 3 / 5) / (2 / 5))
    else d.opacity
  { pos := p.pos, size := size, alpha := max 0 (min 1 alpha),
    angle := p.angle }

/-- The `_updateGeometry` pass: one entry per active particle, in pool order;
inactive slots are skipped, and the draw range is the number of entries
written. -/
def foamGeometry (d : FoamData) : List FoamParticle → List FoamGeom
  | [] => []
  | p :: ps =>
    if p.active then foamGeomEntry d p :: foamGeometry d ps
    else foamGeometry d ps

/-- The foam tick's time step: `Math.min(delta / 1000, 0.05)`
(line 110 of `foam-system.js`). -/
def foamDt (delta : ℚ) : ℚ := min (delta / 1000) (1 / 20)

/-- The `tick(time, delta)` of `foam-system`: clamp the time step, spawn only
when `emitting`, simulate, write geometry. -/
def foamTick (d : FoamData) (delta : ℚ) (origin : Vec3)
    (spawnRnds : Nat → FoamSpawnRand) (simRnds : Nat → FoamSimRand)
    (s : FoamState) : FoamState × List FoamGeom :=
  let dt := foamDt delta
  let s1 := if s.emitting then foamSpawn d dt origin spawnRnds s else s
  let ps := foamSimulate d dt simRnds s1.particles
  ({ s1 with particles := ps }, foamGeometry d ps)

/-! ## Fire system (`fire-system` component) -/

/-- One fire/smoke particle (an element of `sys.particles`).
`currentSize` is written on the first update before geometry ever reads
it; it starts at 0 here. -/
structure FireParticle where
  position : Vec3
  size : ℚ
  colour : Color
  alpha : ℚ
  life : ℚ
  maxLife : ℚ
  rotation : ℚ
  rotationRate : ℚ
  velocity : Vec3
  isCeiling : Bool
  currentSize : ℚ
deriving DecidableEq, Repr

/-- One particle system as built by `_createParticleSystem` (spline
control points are kept as data; `accumulator` is the emission
accumulator; `capacity` the preallocated buffer size). -/
structure FireSys where
  particles : List FireParticle
  rate : ℚ
  radius : ℚ
  maxLife : ℚ
  maxSize : ℚ
  velocity : Vec3
  alphaPoints : List (ℚ × ℚ)
  colorPoints : List (ℚ × Color)
  suppressedColorPoints : Option (List (ℚ × Color))
  sizePoints : List (ℚ × ℚ)
  accumulator : ℚ
  isCeiling : Bool
  isFire : Bool
  isSmoke : Bool
  capacity : Nat
  sortSkip : Int

/-- The `fire-system` schema fields the ceiling logic reads. -/
structure FireConfig where
  ceilingWidth : ℚ
  ceilingDepth : ℚ
  ceilingHeight : ℚ
deriving DecidableEq, Repr

/-- The constant `hitRadius * hitRadius` with `hitRadius = 2.5`
(squared detection radius, computed once per suppression check). -/
def hitRadiusSq : ℚ := (5 / 2) * (5 / 2)

/-- The constant `this.suppressionRate = 0.12` set in `init()`. -/
def suppressionRate : ℚ := 12 / 100

/-- The constant `this.recoveryRate = 0.02` set in `init()` — defined by the source
but only ever used in commented-out code. -/
def recoveryRate : ℚ := 2 / 100

/-- The counting loop of `_checkFoamSuppression`: active foam particles
whose squared distance to the fire position is below `hitRadiusSq`. -/
def foamHitCount : List FoamParticle → Vec3 → Nat
  | [], _ => 0
  | fp :: rest, firePos =>
    if fp.active = true then
      (if fp.pos.distanceToSquared firePos < hitRadiusSq then 1 else 0)
        + foamHitCount rest firePos
    else foamHitCount rest firePos

/-- The `_checkFoamSuppression(dt)` check: early-out when the foam nozzle (or its
component) is missing or the foam system is not emitting; otherwise
count nearby foam and, above the threshold of 5, decay `fireIntensity`
(floored at 0).  Below the threshold nothing changes — the recovery
branch is commented out in the source. -/
def checkFoamSuppression (foamFound emitting : Bool)
    (foamParticles : List FoamParticle) (firePos : Vec3)
    (sr dt fi : ℚ) : ℚ :=
  if foamFound = false then fi
  else if emitting = false then fi
  else if 5 < foamHitCount foamParticles firePos then max 0 (fi - sr * dt)
  else fi

/-- The intensity scale applied to a system's base rate in
`_addParticles`: `fireIntensity` for fire, `max(0, fireIntensity - 0.15)`
for smoke, 1 otherwise. -/
def rateFactor (isFire isSmoke : Bool) (fi : ℚ) : ℚ :=
  if isFire then fi else if isSmoke then max 0 (fi - 3 / 20) else 1

/-- The emission arithmetic of `_addParticles` (lines 400–407): reset on
non-positive effective rate, otherwise accumulate **time**, spawn
`floor(acc * effectiveRate)` and subtract `n / effectiveRate`.  Returns
the new accumulator and the spawn count. -/
def fireEmit (effectiveRate dt acc : ℚ) : ℚ × ℤ :=
  if effectiveRate ≤ 0 then (0, 0)
  else
    let a := acc + dt
    let n := ⌊a * effectiveRate⌋
    (a - (n : ℚ) / effectiveRate, n)

/-- Modelled from the spec: the emission policy §4.3 as the spec words
it — the accumulator itself holds particle counts, each call adds
`effectiveRate * dt`, spawns `floor(accumulator)` and keeps the
fractional remainder; reset to 0 when `effectiveRate ≤ 0`.  Used only to
compare the spec's description against `fireEmit` (refinement claim). -/
def specAccumulate (effectiveRate dt acc : ℚ) : ℚ × ℤ :=
  if effectiveRate ≤ 0 then (0, 0)
  else
    let a := acc + effectiveRate * dt
    let n := ⌊a⌋
    (a - (n : ℚ), n)

/-- Iterate `fireEmit` from a zero accumulator for `N` ticks at constant
effective rate and time step, summing the spawn counts. -/
def fireEmitRun (effectiveRate dt : ℚ) : Nat → ℚ × ℤ
  | 0 => (0, 0)
  | n + 1 =>
    let prev := fireEmitRun effectiveRate dt n
    let en := fireEmit effectiveRate dt prev.1
    (en.1, prev.2 + en.2)

/-- The random draws consumed when `_addParticles` constructs one
particle.  `rotV` stands for the sampled rotation `Math.random() * 2π`;
the rest are raw `Math.random()` values. -/
structure FireSpawnRand where
  lifeR : ℚ
  posA : ℚ
  posB : ℚ
  posC : ℚ
  velA : ℚ
  velB : ℚ
  velC : ℚ
  sizeR : ℚ
  rotV : ℚ
  rotRateR : ℚ

/-- The particle record pushed by `_addParticles` (lines 413–452),
with the ceiling / non-ceiling spawn geometry branch. -/
def mkFireParticle (cfg : FireConfig) (sys : FireSys) (emitterPos : Vec3)
    (r : FireSpawnRand) : FireParticle :=
  let life := (r.lifeR * (3 / 4) + 1 / 4) * sys.maxLife
  let position :=
    if sys.isCeiling then
      (⟨emitterPos.x + (r.posA - 1 / 2) * cfg.ceilingWidth,
        cfg.ceilingHeight - 1 / 10,
        emitterPos.z + (r.posB - 1 / 2) * cfg.ceilingDepth⟩ : Vec3)
    else
      Vec3.add ⟨(r.posA * 2 - 1) * sys.radius,
                (r.posB * 2 - 1) * sys.radius * (3 / 10),
                (r.posC * 2 - 1) * sys.radius⟩ emitterPos
  let velocity :=
    if sys.isCeiling then
      (⟨(r.velA - 1 / 2) * (4 / 5), -(1 / 20),
        (r.velC - 1 / 2) * (4 / 5)⟩ : Vec3)
    else
      ⟨sys.velocity.x + (r.velA - 1 / 2) * (1 / 2),
       sys.velocity.y + r.velB * (1 / 2),
       sys.velocity.z + (r.velC - 1 / 2) * (1 / 2)⟩
  { position := position
    size := (r.sizeR * (1 / 2) + 1 / 2) * sys.maxSize
    colour := ⟨1, 1, 1⟩
    alpha := 1
    life := life
    maxLife := life
    rotation := r.rotV
    rotationRate := (r.rotRateR - 1 / 2) * (1 / 50)
    velocity := velocity
    isCeiling := sys.isCeiling
    currentSize := 0 }

/-- The push loop of `_addParticles`: stop as soon as the particle array
has grown to the preallocated capacity
(`if (sys.particles.length >= sys.capacity) break`). -/
def fireSpawnLoop (cap : Nat) :
    List FireParticle → List FireParticle → List FireParticle
  | [], ps => ps
  | q :: qs, ps =>
    if cap ≤ ps.length then ps
    else fireSpawnLoop cap qs (ps ++ [q])

/-- The `_addParticles(sys, dt)` step. -/
def fireAddParticles (cfg : FireConfig) (fi : ℚ) (emitterPos : Vec3)
    (rnds : Nat → FireSpawnRand) (sys : FireSys) (dt : ℚ) : FireSys :=
  let er := sys.rate * rateFactor sys.isFire sys.isSmoke fi
  let en := fireEmit er dt sys.accumulator
  { sys with
    accumulator := en.1
    particles :=
      fireSpawnLoop sys.capacity
        ((List.range en.2.toNat).map
          (fun i => mkFireParticle cfg sys emitterPos (rnds i)))
        sys.particles }

/-- A particle's normalized age `1 - life / maxLife` as `_updateParticles`
computes it (after the life decrement). -/
def fireParticleAge (p : FireParticle) : ℚ := 1 - p.life / p.maxLife

/-- Per-particle, per-tick random draws of `_updateParticles` (ceiling
drift only). -/
structure FireUpdRand where
  driftX : ℚ
  driftZ : ℚ

/-- The per-particle body of the second `_updateParticles` loop
(lines 463–518): rotation, spline-driven alpha/size, color blend toward
the suppressed palette by `1 - fireIntensity`, position integration, and
the ceiling-drift / drag velocity branch. -/
def fireUpdateP (fi : ℚ) (cfg : FireConfig) (emitterPos : Vec3)
    (sys : FireSys) (dt : ℚ) (r : FireUpdRand) (p : FireParticle) :
    FireParticle :=
  let t := fireParticleAge p
  let rotation := p.rotation + p.rotationRate
  let alpha := getValueAt lerpScalar 0 sys.alphaPoints t
  let currentSize := p.size * getValueAt lerpScalar 0 sys.sizePoints t
  let colour :=
    match sys.suppressedColorPoints with
    | some sps =>
      (getValueAt colorLerpFn ⟨1, 1, 1⟩ sys.colorPoints t).lerp
        (getValueAt colorLerpFn ⟨1, 1, 1⟩ sps t) (1 - fi)
    | none => getValueAt colorLerpFn ⟨1, 1, 1⟩ sys.colorPoints t
  let position := p.position.add (Vec3.scale dt p.velocity)
  let velocity :=
    if p.isCeiling then
      let vx := p.velocity.x + (r.driftX - 1 / 2) * (1 / 4) * dt
      let vz := p.velocity.z + (r.driftZ - 1 / 2) * (1 / 4) * dt
      let vx' := if cfg.ceilingWidth * (1 / 2) < |position.x - emitterPos.x|
        then vx * (-(1 / 2)) else vx
      let vz' := if cfg.ceilingDepth * (1 / 2) < |position.z - emitterPos.z|
        then vz * (-(1 / 2)) else vz
      let vy := if position.y < cfg.ceilingHeight - 3 / 10
        then p.velocity.y + (1 / 10) * dt else p.velocity.y
      (⟨vx', vy, vz'⟩ : Vec3)
    else
      let drag0 := Vec3.scale (dt * (1 / 10)) p.velocity
      let dx := msign p.velocity.x * min |drag0.x| |p.velocity.x|
      let dy := msign p.velocity.y * min |drag0.y| |p.velocity.y|
      let dz := msign p.velocity.z * min |drag0.z| |p.velocity.z|
      (⟨p.velocity.x - dx, p.velocity.y - dy, p.velocity.z - dz⟩ : Vec3)
  { p with rotation := rotation, alpha := alpha,
           currentSize := currentSize, colour := colour,
           position := position, velocity := velocity }

/-- The second `_updateParticles` loop over the surviving particles; the
index threads the per-particle random draws. -/
def fireUpdateList (fi : ℚ) (cfg : FireConfig) (emitterPos : Vec3)
    (sys : FireSys) (dt : ℚ) (rnds : Nat → FireUpdRand) :
    Nat → List FireParticle → List FireParticle
  | _, [] => []
  | i, p :: ps =>
    fireUpdateP fi cfg emitterPos sys dt (rnds i) p ::
      fireUpdateList fi cfg emitterPos sys dt rnds (i + 1) ps

/-- The `_updateParticles(sys, dt)` pass: decrement every life, drop expired
particles, update the survivors, and every sixth tick re-sort
back-to-front by camera distance (the comparator `d2 - d1` orders by
descending distance; sorting by squared distance yields the same order). -/
def fireUpdateParticles (fi : ℚ) (cfg : FireConfig)
    (emitterPos camPos : Vec3) (dt : ℚ) (rnds : Nat → FireUpdRand)
    (sys : FireSys) : FireSys :=
  let ps1 := sys.particles.map (fun p => { p with life := p.life - dt })
  let ps2 := ps1.filter (fun p => decide (0 < p.life))
  let ps3 := fireUpdateList fi cfg emitterPos sys dt rnds 0 ps2
  if sys.sortSkip ≤ 0 then
    { sys with
      particles :=
        List.insertionSort
          (fun a b =>
            camPos.distanceToSquared b.position ≤
              camPos.distanceToSquared a.position) ps3
      sortSkip := 5 }
  else { sys with particles := ps3, sortSkip := sys.sortSkip - 1 }

/-- One vertex record written by `_updateGeometry` of the fire system. -/
structure FireGeom where
  pos : Vec3
  size : ℚ
  colour : Color
  alpha : ℚ
  angle : ℚ
deriving DecidableEq, Repr

/-- The `_updateGeometry(sys)` pass: writes
`drawCount = min(particles.length, capacity)` leading particles and sets
the draw range to `drawCount`. -/
def fireGeometry (sys : FireSys) : List FireGeom × Nat :=
  let drawCount := min sys.particles.length sys.capacity
  ((sys.particles.take drawCount).map
    (fun p => ⟨p.position, p.currentSize, p.colour, p.alpha, p.rotation⟩),
   drawCount)

/-- The fire tick's time step: `Math.min(delta / 1000, 0.05)`
(line 316 of the fire-system source). -/
def fireDt (delta : ℚ) : ℚ := min (delta / 1000) (1 / 20)

/-- The whole mutable state of the fire component that the simulation
reads and writes across ticks. -/
structure FireState where
  fireIntensity : ℚ
  systems : List FireSys

/-- Everything one fire tick reads from outside the component: the frame
delta, the foam system snapshot used by the suppression check, world
positions, and the per-system random streams. -/
structure FireTickIn where
  delta : ℚ
  foamFound : Bool
  foamEmitting : Bool
  foamParticles : List FoamParticle
  firePos : Vec3
  camPos : Vec3
  spawnRnds : Nat → Nat → FireSpawnRand
  updateRnds : Nat → Nat → FireUpdRand

/-- The `systems.forEach` body of `tick`: spawn then update for each
system (geometry writing has no effect on simulation state). -/
def fireSystemsGo (cfg : FireConfig) (inp : FireTickIn) (fi dt : ℚ) :
    Nat → List FireSys → List FireSys
  | _, [] => []
  | i, sys :: rest =>
    fireUpdateParticles fi cfg inp.firePos inp.camPos dt (inp.updateRnds i)
        (fireAddParticles cfg fi inp.firePos (inp.spawnRnds i) sys dt)
      :: fireSystemsGo cfg inp fi dt (i + 1) rest

/-- The `tick(time, delta)` of the fire system: clamp the time step, run the
suppression check (the only write to `fireIntensity`), then spawn/update
every system with the new intensity.  The light flicker only reads
`fireIntensity`. -/
def fireSystemTick (cfg : FireConfig) (inp : FireTickIn)
    (st : FireState) : FireState :=
  let dt := fireDt inp.delta
  let fi := checkFoamSuppression inp.foamFound inp.foamEmitting
    inp.foamParticles inp.firePos suppressionRate dt st.fireIntensity
  { fireIntensity := fi, systems := fireSystemsGo cfg inp fi dt 0 st.systems }

/-- Iterated fire ticks from `init()`'s state (`fireIntensity = 1.0`,
initial systems `s0`). -/
def runFire (cfg : FireConfig) (s0 : List FireSys)
    (inps : List FireTickIn) : FireState :=
  inps.foldl (fun st inp => fireSystemTick cfg inp st)
    { fireIntensity := 1, systems := s0 }

/-! ## Concrete sample values (used by counterexamples and witnesses) -/

/-- An active foam particle sitting at the origin. -/
def activeAtOrigin : FoamParticle :=
  { defFoamParticle with active := true, life := 1, maxLife := 1 }

/-- Six active foam particles at the fire's own position — more than the
suppression threshold of 5. -/
def pool6 : List FoamParticle := List.replicate 6 activeAtOrigin

/-- The `foam-system` schema defaults. -/
def sampleFoamData : FoamData :=
  { rate := 300, speed := 8, life := 5 / 2, sizeStart := 3 / 100,
    sizeEnd := 4 / 5, gravity := -4, drag := 6 / 5, opacity := 13 / 20,
    floorY := 0, groundSpread := 2, groundDrag := 6, groundBounce := 3 / 100,
    groundSizeScale := 3 / 2, turbulence := 4 / 5, spreadGrowth := 3 / 2 }

/-- Fixed per-tick random draws (all mid-range; impact angle 0). -/
def sampleSimRand : FoamSimRand :=
  { turbX := 1 / 2, turbY := 1 / 2, turbZ := 1 / 2, sprX := 1 / 2,
    sprZ := 1 / 2, angC := 1, angS := 0 }

/-- An airborne foam particle just above the floor, falling fast enough
to cross it in one 0.05 s step. -/
def pFalling : FoamParticle :=
  { defFoamParticle with
    active := true
    life := 2
    maxLife := 2
    pos := ⟨0, 1 / 10, 0⟩
    vel := ⟨0, -8, 0⟩ }

/-- A grounded foam particle with some residual horizontal velocity. -/
def pGrounded : FoamParticle :=
  { defFoamParticle with
    active := true
    life := 2
    maxLife := 2
    pos := ⟨1, 1 / 200, 0⟩
    vel := ⟨1 / 2, 0, 0⟩
    grounded := true
    groundTime := 1 / 10 }

/-- Fixed foam spawn draws (straight-ahead direction, mid-range draws). -/
def sampleSpawnDraw : FoamSpawnRand :=
  { posOffset := ⟨0, 0, 0⟩, dir := ⟨0, 0, -1⟩, speedR := 1 / 2,
    lifeR := 1 / 2, sizeStartR := 1 / 2, sizeEndR := 1 / 2, angleV := 0,
    spinR := 1 / 2 }

/-- A stopped foam system with one live grounded particle and one free
slot. -/
def sampleStoppedState : FoamState :=
  { emitting := false, spawnAcc := 0,
    particles := [pGrounded, defFoamParticle] }

/-- Schema defaults of the ceiling configuration. -/
def sampleCfg : FireConfig :=
  { ceilingWidth := 10, ceilingDepth := 8, ceilingHeight := 11 / 2 }

/-- Fixed spawn draws (all mid-range). -/
def sampleFireSpawnRand : FireSpawnRand :=
  { lifeR := 1 / 2, posA := 1 / 2, posB := 1 / 2, posC := 1 / 2,
    velA := 1 / 2, velB := 1 / 2, velC := 1 / 2, sizeR := 1 / 2,
    rotV := 0, rotRateR := 1 / 2 }

/-- Fixed ceiling-drift draws. -/
def sampleFireUpdRand : FireUpdRand := { driftX := 1 / 2, driftZ := 1 / 2 }

/-- A small flame system carrying both color splines (values as in the
fire palette, simplified to exact rationals). -/
def sampleFireSys : FireSys :=
  { particles := []
    rate := 20
    radius := 2 / 5
    maxLife := 9 / 5
    maxSize := 4
    velocity := ⟨0, 2, 0⟩
    alphaPoints := [(0, 0), (1 / 5, 1), (4 / 5, 4 / 5), (1, 0)]
    colorPoints := [(0, ⟨1, 1, 1⟩), (1, ⟨1, 0, 0⟩)]
    suppressedColorPoints := some [(0, ⟨2 / 3, 2 / 3, 2 / 3⟩), (1, ⟨1 / 4, 1 / 4, 1 / 4⟩)]
    sizePoints := [(0, 0), (1 / 2, 1), (1, 1)]
    accumulator := 0
    isCeiling := false
    isFire := true
    isSmoke := false
    capacity := 203
    sortSkip := 0 }

/-- A live flame particle halfway through its life. -/
def sampleFireP : FireParticle :=
  { position := ⟨0, 1, 0⟩, size := 2, colour := ⟨1, 1, 1⟩, alpha := 1,
    life := 9 / 10, maxLife := 9 / 5, rotation := 0, rotationRate := 0,
    velocity := ⟨0, 2, 0⟩, isCeiling := false, currentSize := 0 }

/-- One concrete tick input for the fire system. -/
def sampleTickIn : FireTickIn :=
  { delta := 50
    foamFound := true
    foamEmitting := true
    foamParticles := pool6
    firePos := ⟨0, 0, 0⟩
    camPos := ⟨0, 1, 2⟩
    spawnRnds := fun _ _ => sampleFireSpawnRand
    updateRnds := fun _ _ => sampleFireUpdRand }

/-! Helper lemmas about `List.findIdx`, phrased through `getD` so the
spline theorems can pin down which branch `getValueAt` takes. -/

lemma findIdx_eq_of_getD {α : Type} (d0 : α) (p : α → Bool) :
    ∀ (l : List α) (j : Nat), j < l.length →
      (∀ i, i < j → p (l.getD i d0) = false) → p (l.getD j d0) = true →
      l.findIdx p = j := by
  intro l
  induction l with
  | nil => intro j hj _ _; simp at hj
  | cons a l ih =>
    intro j hj hbefore hhit
    cases j with
    | zero =>
      rw [List.getD_cons_zero] at hhit
      simp [List.findIdx_cons, hhit]
    | succ j =>
      have ha : p a = false := by
        have := hbefore 0 (Nat.succ_pos j)
        rwa [List.getD_cons_zero] at this
      have hj' : j < l.length := by simpa using hj
      have hb' : ∀ i, i < j → p (l.getD i d0) = false := by
        intro i hi
        have := hbefore (i + 1) (by omega)
        rwa [List.getD_cons_succ] at this
      have hh' : p (l.getD j d0) = true := by
        rwa [List.getD_cons_succ] at hhit
      simp [List.findIdx_cons, ha, ih j hj' hb' hh']

lemma findIdx_eq_length_of_getD {α : Type} (d0 : α) (p : α → Bool) :
    ∀ (l : List α), (∀ i, i < l.length → p (l.getD i d0) = false) →
      l.findIdx p = l.length := by
  intro l
  induction l with
  | nil => simp
  | cons a l ih =>
    intro hall
    have ha : p a = false := by
      have := hall 0 (Nat.succ_pos _)
      rwa [List.getD_cons_zero] at this
    have h' : ∀ i, i < l.length → p (l.getD i d0) = false := by
      intro i hi
      have := hall (i + 1) (by simpa using Nat.succ_lt_succ hi)
      rwa [List.getD_cons_succ] at this
    simp [List.findIdx_cons, ha, ih h']

/-- Adjacent monotonicity extends to arbitrary index pairs. -/
lemma getD_mono_of_adjacent (ps : List (ℚ × ℚ))
    (hmono : ∀ i, i + 1 < ps.length →
      (ps.getD i (0, 0)).1 ≤ (ps.getD (i + 1) (0, 0)).1) :
    ∀ i j, i ≤ j → j < ps.length →
      (ps.getD i (0, 0)).1 ≤ (ps.getD j (0, 0)).1 := by
  intro i j hij hj
  induction j with
  | zero =>
    have : i = 0 := Nat.le_zero.mp hij
    simp [this]
  | succ j ih =>
    rcases Nat.lt_or_ge i (j + 1) with h | h
    · have h1 : (ps.getD i (0, 0)).1 ≤ (ps.getD j (0, 0)).1 :=
        ih (by omega) (by omega)
      exact le_trans h1 (hmono j hj)
    · have : i = j + 1 := le_antisymm hij h
      simp [this]

/-! ## Generic helper lemmas -/

lemma Color.lerp_zero (a b : Color) : a.lerp b 0 = a := by
  cases a; cases b; simp [Color.lerp]

lemma Color.lerp_one (a b : Color) : a.lerp b 1 = b := by
  cases a; cases b; simp [Color.lerp]

/-- The counting loop equals a filter over active in-radius particles. -/
lemma foamHitCount_eq_filter (ps : List FoamParticle) (firePos : Vec3) :
    foamHitCount ps firePos =
      (ps.filter (fun fp => fp.active &&
        decide (fp.pos.distanceToSquared firePos < hitRadiusSq))).length := by
  induction ps with
  | nil => rfl
  | cons fp rest ih =>
    by_cases ha : fp.active
    · by_cases hd : fp.pos.distanceToSquared firePos < hitRadiusSq
      · simp [foamHitCount, ha, hd, List.filter_cons, ih, Nat.add_comm]
      · simp [foamHitCount, ha, hd, List.filter_cons, ih]
    · simp [foamHitCount, ha, List.filter_cons, ih]

/-- The suppression step never raises the intensity and keeps it
non-negative (given a non-negative starting value, rate and step). -/
lemma checkFoamSuppression_le (found emit : Bool) (ps : List FoamParticle)
    (pos : Vec3) (sr dt fi : ℚ) (h0 : 0 ≤ fi) (hsr : 0 ≤ sr)
    (hdt : 0 ≤ dt) :
    checkFoamSuppression found emit ps pos sr dt fi ≤ fi ∧
      0 ≤ checkFoamSuppression found emit ps pos sr dt fi := by
  unfold checkFoamSuppression
  split_ifs with h1 h2 h3
  · exact ⟨le_refl _, h0⟩
  · exact ⟨le_refl _, h0⟩
  · refine ⟨max_le ?_ ?_, le_max_left _ _⟩
    · exact h0
    · have : 0 ≤ sr * dt := mul_nonneg hsr hdt
      linarith
  · exact ⟨le_refl _, h0⟩

lemma fireSystemTick_intensity (cfg : FireConfig) (inp : FireTickIn)
    (st : FireState) :
    (fireSystemTick cfg inp st).fireIntensity =
      checkFoamSuppression inp.foamFound inp.foamEmitting inp.foamParticles
        inp.firePos suppressionRate (fireDt inp.delta) st.fireIntensity := rfl

lemma fireDt_nonneg (delta : ℚ) (h : 0 ≤ delta) : 0 ≤ fireDt delta :=
  le_min (div_nonneg h (by norm_num)) (by norm_num)

/-- Folding fire ticks with non-negative frame deltas keeps the
intensity in `[0, start]`. -/
lemma foldFire_intensity (cfg : FireConfig) :
    ∀ (inps : List FireTickIn) (st : FireState),
      (∀ inp ∈ inps, 0 ≤ inp.delta) → 0 ≤ st.fireIntensity →
      0 ≤ (inps.foldl (fun s inp => fireSystemTick cfg inp s) st).fireIntensity ∧
        (inps.foldl (fun s inp => fireSystemTick cfg inp s) st).fireIntensity ≤
          st.fireIntensity := by
  intro inps
  induction inps with
  | nil => intro st _ h0; exact ⟨h0, le_refl _⟩
  | cons inp rest ih =>
    intro st hd h0
    have hdt : 0 ≤ fireDt inp.delta :=
      fireDt_nonneg _ (hd inp (List.mem_cons_self _ _))
    have hstep := checkFoamSuppression_le inp.foamFound inp.foamEmitting
      inp.foamParticles inp.firePos suppressionRate (fireDt inp.delta)
      st.fireIntensity h0 (by norm_num [suppressionRate]) hdt
    have h0' : 0 ≤ (fireSystemTick cfg inp st).fireIntensity := by
      rw [fireSystemTick_intensity]; exact hstep.2
    have hrest := ih (fireSystemTick cfg inp st)
      (fun i hi => hd i (List.mem_cons_of_mem _ hi)) h0'
    refine ⟨hrest.1, le_trans hrest.2 ?_⟩
    rw [fireSystemTick_intensity]; exact hstep.1

/-! ## Pool bookkeeping lemmas -/

lemma active_add_inactive (ps : List FoamParticle) :
    activeCount ps + inactiveCount ps = ps.length := by
  induction ps with
  | nil => rfl
  | cons p rest ih =>
    by_cases h : p.active
    · simp [activeCount, inactiveCount, List.filter_cons, h] at ih ⊢; omega
    · simp [activeCount, inactiveCount, List.filter_cons, h] at ih ⊢; omega

lemma setFirstInactive_none {q : FoamParticle} :
    ∀ {ps : List FoamParticle}, setFirstInactive q ps = none →
      inactiveCount ps = 0 := by
  intro ps
  induction ps with
  | nil => intro _; rfl
  | cons p rest ih =>
    intro h
    by_cases hp : p.active
    · simp only [setFirstInactive, if_pos hp, Option.map_eq_none'] at h
      simpa [inactiveCount, List.filter_cons, hp] using ih h
    · simp [setFirstInactive, hp] at h

lemma setFirstInactive_some {q : FoamParticle} (hq : q.active = true) :
    ∀ {ps ps' : List FoamParticle}, setFirstInactive q ps = some ps' →
      ps'.length = ps.length ∧
        activeCount ps' = activeCount ps + 1 ∧
        inactiveCount ps' + 1 = inactiveCount ps := by
  intro ps
  induction ps with
  | nil => intro ps' h; simp [setFirstInactive] at h
  | cons p rest ih =>
    intro ps' h
    by_cases hp : p.active
    · simp only [setFirstInactive, if_pos hp, Option.map_eq_some'] at h
      obtain ⟨rest', hr, hps'⟩ := h
      obtain ⟨h1, h2, h3⟩ := ih hr
      subst hps'
      refine ⟨by simp [h1], ?_, ?_⟩
      · simp [activeCount, List.filter_cons, hp] at h2 ⊢; omega
      · simp [inactiveCount, List.filter_cons, hp] at h3 ⊢; omega
    · simp only [setFirstInactive, if_neg hp] at h
      cases h
      refine ⟨rfl, ?_, ?_⟩
      · simp [activeCount, List.filter_cons, hp, hq]
      · simp [inactiveCount, List.filter_cons, hp, hq]

lemma foamSpawnList_spec :
    ∀ (qs : List FoamParticle) (pool : List FoamParticle),
      (∀ q ∈ qs, q.active = true) →
      (foamSpawnList qs pool).length = pool.length ∧
        activeCount (foamSpawnList qs pool) =
          activeCount pool + min qs.length (inactiveCount pool) := by
  intro qs
  induction qs with
  | nil => intro pool _; simp [foamSpawnList]
  | cons q rest ih =>
    intro pool hq
    have hqa : q.active = true := hq q (List.mem_cons_self _ _)
    cases hs : setFirstInactive q pool with
    | none =>
      have h0 := setFirstInactive_none hs
      simp [foamSpawnList, hs, h0]
    | some pool' =>
      obtain ⟨h1, h2, h3⟩ := setFirstInactive_some hqa hs
      have hrest := ih pool' (fun x hx => hq x (List.mem_cons_of_mem _ hx))
      simp only [foamSpawnList, hs]
      refine ⟨by rw [hrest.1, h1], ?_⟩
      rw [hrest.2, h2]
      simp only [List.length_cons]
      omega

lemma fireSpawnLoop_length (cap : Nat) :
    ∀ (qs : List FireParticle) (ps : List FireParticle),
      (fireSpawnLoop cap qs ps).length =
        ps.length + min qs.length (cap - ps.length) := by
  intro qs
  induction qs with
  | nil => intro ps; simp [fireSpawnLoop]
  | cons q rest ih =>
    intro ps
    by_cases h : cap ≤ ps.length
    · simp only [fireSpawnLoop, if_pos h, List.length_cons]
      omega
    · simp only [fireSpawnLoop, if_neg h]
      rw [ih (ps ++ [q])]
      simp only [List.length_append, List.length_cons, List.length_nil]
      omega

lemma mkFoamSpawned_active (d : FoamData) (origin : Vec3)
    (r : FoamSpawnRand) : (mkFoamSpawned d origin r).active = true := rfl

/-! ## C10 — time-step clamping -/

/-- C10: every simulation tick of both the foam system and the fire
system computes `dt = min(delta / 1000, 0.05)`; for a non-negative frame
delta this time step lies in `[0, 0.05]` (and the two systems use the
identical formula). -/
theorem dt_clamped (delta : ℚ) (h : 0 ≤ delta) :
    0 ≤ foamDt delta ∧ foamDt delta ≤ 1 / 20 ∧
      fireDt delta = foamDt delta ∧
      0 ≤ fireDt delta ∧ fireDt delta ≤ 1 / 20 := by
  refine ⟨le_min (div_nonneg h (by norm_num)) (by norm_num),
    min_le_right _ _, rfl,
    le_min (div_nonneg h (by norm_num)) (by norm_num), min_le_right _ _⟩

/-- C10 witness: a 16 ms frame. -/
theorem dt_clamped_witness :
    0 ≤ foamDt 16 ∧ foamDt 16 ≤ 1 / 20 ∧ fireDt 16 = foamDt 16 ∧
      0 ≤ fireDt 16 ∧ fireDt 16 ≤ 1 / 20 :=
  dt_clamped 16 (by norm_num)

/-! ## C1 — foam suppression of the fire intensity -/

/-- C1 counterexample: six active foam particles sit exactly at the fire
position (count 6 > 5), but the foam system is not emitting, so
`_checkFoamSuppression` returns early and the intensity stays 1 even
though the claim demands a decrease by `suppressionRate * dt`. -/
theorem suppression_skipped_when_not_emitting :
    5 < foamHitCount pool6 ⟨0, 0, 0⟩ ∧
      checkFoamSuppression true false pool6 ⟨0, 0, 0⟩ suppressionRate
        (fireDt 50) 1 = 1 ∧
      max 0 (1 - suppressionRate * fireDt 50) ≠ 1 := by
  have hdt : fireDt 50 = 1 / 20 := by
    unfold fireDt
    rw [show (50 : ℚ) / 1000 = 1 / 20 by norm_num, min_self]
  refine ⟨?_, ?_, ?_⟩
  · norm_num [pool6, List.replicate, foamHitCount, activeAtOrigin,
      defFoamParticle, Vec3.distanceToSquared, hitRadiusSq]
  · simp [checkFoamSuppression]
  · rw [hdt, show (1 : ℚ) - suppressionRate * (1 / 20) = 497 / 500 by
      norm_num [suppressionRate],
      max_eq_right (by norm_num : (0 : ℚ) ≤ 497 / 500)]
    norm_num

/-- C1 (amended): provided the foam nozzle is found and its foam system
is emitting, the tick counts the active foam particles within squared
distance `hitRadiusSq` of the fire position; if the count exceeds 5 the
intensity becomes `max 0 (fireIntensity - suppressionRate * dt)`
(decrease floored at 0), otherwise it is left unchanged (no recovery). -/
theorem checkFoamSuppression_spec (ps : List FoamParticle) (firePos : Vec3)
    (sr dt fi : ℚ) :
    foamHitCount ps firePos =
      (ps.filter (fun fp => fp.active &&
        decide (fp.pos.distanceToSquared firePos < hitRadiusSq))).length ∧
    (5 < foamHitCount ps firePos →
      checkFoamSuppression true true ps firePos sr dt fi =
        max 0 (fi - sr * dt)) ∧
    (foamHitCount ps firePos ≤ 5 →
      checkFoamSuppression true true ps firePos sr dt fi = fi) := by
  refine ⟨foamHitCount_eq_filter ps firePos, ?_, ?_⟩
  · intro h
    simp [checkFoamSuppression, h]
  · intro h
    simp [checkFoamSuppression, Nat.not_lt.mpr h]

/-- C1 witness: with the six-particle pool and the system emitting, one
0.05 s tick lowers the intensity to `1 - 0.12 * 0.05`. -/
theorem checkFoamSuppression_spec_witness :
    checkFoamSuppression true true pool6 ⟨0, 0, 0⟩ suppressionRate
      (1 / 20) 1 = max 0 (1 - suppressionRate * (1 / 20)) :=
  (checkFoamSuppression_spec pool6 ⟨0, 0, 0⟩ suppressionRate (1 / 20) 1).2.1
    (by norm_num [pool6, List.replicate, foamHitCount, activeAtOrigin,
      defFoamParticle, Vec3.distanceToSquared, hitRadiusSq])

/-! ## C2 — the fire intensity stays in `[0,1]` and never increases -/

/-- C2: starting from `init()`'s `fireIntensity = 1.0`, any sequence of
fire ticks with non-negative frame deltas keeps the intensity in
`[0, 1]`, and appending further ticks can only lower it (each tick either
leaves it unchanged or decreases it, clamped at 0 by `Math.max`; no
operation increases it). -/
theorem fireIntensity_invariant (cfg : FireConfig) (s0 : List FireSys)
    (inps : List FireTickIn) (h : ∀ inp ∈ inps, 0 ≤ inp.delta) :
    0 ≤ (runFire cfg s0 inps).fireIntensity ∧
      (runFire cfg s0 inps).fireIntensity ≤ 1 ∧
      ∀ (more : List FireTickIn), (∀ inp ∈ more, 0 ≤ inp.delta) →
        (runFire cfg s0 (inps ++ more)).fireIntensity ≤
          (runFire cfg s0 inps).fireIntensity := by
  have base := foldFire_intensity cfg inps
    { fireIntensity := 1, systems := s0 } h (by norm_num)
  refine ⟨base.1, base.2, ?_⟩
  intro more hmore
  have : runFire cfg s0 (inps ++ more) =
      more.foldl (fun s inp => fireSystemTick cfg inp s)
        (runFire cfg s0 inps) := by
    unfold runFire
    exact List.foldl_append _ _ _ _
  rw [this]
  exact (foldFire_intensity cfg more (runFire cfg s0 inps) hmore base.1).2

/-- C2 witness: one concrete suppressing tick. -/
theorem fireIntensity_invariant_witness :
    0 ≤ (runFire sampleCfg [] [sampleTickIn]).fireIntensity ∧
      (runFire sampleCfg [] [sampleTickIn]).fireIntensity ≤ 1 ∧
      ∀ (more : List FireTickIn), (∀ inp ∈ more, 0 ≤ inp.delta) →
        (runFire sampleCfg [] ([sampleTickIn] ++ more)).fireIntensity ≤
          (runFire sampleCfg [] [sampleTickIn]).fireIntensity :=
  fireIntensity_invariant sampleCfg [] [sampleTickIn]
    (by intro inp hi; rw [List.mem_singleton] at hi; subst hi; norm_num [sampleTickIn])

/-! ## C6 — blend toward the suppressed palette -/

/-- C6: for a particle of a system carrying a suppressed color spline,
the updated color is the normal spline value at the particle's age
lerped toward the suppressed spline value at the same age by
`1 - fireIntensity`; at intensity 1 it equals the normal value exactly,
at intensity 0 the suppressed value exactly. -/
theorem fire_color_blend (fi : ℚ) (cfg : FireConfig) (emitterPos : Vec3)
    (sys : FireSys) (dt : ℚ) (r : FireUpdRand) (p : FireParticle)
    (sps : List (ℚ × Color)) (hs : sys.suppressedColorPoints = some sps) :
    (fireUpdateP fi cfg emitterPos sys dt r p).colour =
      (getValueAt colorLerpFn ⟨1, 1, 1⟩ sys.colorPoints
        (fireParticleAge p)).lerp
        (getValueAt colorLerpFn ⟨1, 1, 1⟩ sps (fireParticleAge p))
        (1 - fi) ∧
    (fi = 1 → (fireUpdateP fi cfg emitterPos sys dt r p).colour =
      getValueAt colorLerpFn ⟨1, 1, 1⟩ sys.colorPoints (fireParticleAge p)) ∧
    (fi = 0 → (fireUpdateP fi cfg emitterPos sys dt r p).colour =
      getValueAt colorLerpFn ⟨1, 1, 1⟩ sps (fireParticleAge p)) := by
  have hc : (fireUpdateP fi cfg emitterPos sys dt r p).colour =
      (getValueAt colorLerpFn ⟨1, 1, 1⟩ sys.colorPoints
        (fireParticleAge p)).lerp
        (getValueAt colorLerpFn ⟨1, 1, 1⟩ sps (fireParticleAge p))
        (1 - fi) := by
    simp only [fireUpdateP, hs]
  refine ⟨hc, ?_, ?_⟩
  · intro h; subst h
    rw [hc]; norm_num [Color.lerp_zero]
  · intro h; subst h
    rw [hc]; norm_num [Color.lerp_one]

/-- C6 witness: full intensity reproduces the normal palette for a
concrete flame particle. -/
theorem fire_color_blend_witness :
    (fireUpdateP 1 sampleCfg ⟨0, 0, 0⟩ sampleFireSys (1 / 20)
      sampleFireUpdRand sampleFireP).colour =
      getValueAt colorLerpFn ⟨1, 1, 1⟩ sampleFireSys.colorPoints
        (fireParticleAge sampleFireP) :=
  (fire_color_blend 1 sampleCfg ⟨0, 0, 0⟩ sampleFireSys (1 / 20)
    sampleFireUpdRand sampleFireP
    [(0, ⟨2 / 3, 2 / 3, 2 / 3⟩), (1, ⟨1 / 4, 1 / 4, 1 / 4⟩)] rfl).2.1 rfl

/-! ## C3 — pool capacity -/

/-- C3: for every particle system the active count never exceeds the
fixed capacity.  Foam pool: a spawn request for `N` particles activates
exactly `min(N, capacity - active)` slots (so exactly `capacity - active`
when `N` exceeds the free space), leaving the pool size unchanged.
Fire/smoke/ceiling systems: the push loop stops at `capacity`, growing
the array by exactly `min(N, capacity - length)`; `_addParticles` never
grows a system beyond its capacity.  Overflowing requests are silently
dropped. -/
theorem pool_capacity (specs : List FoamParticle)
    (pool : List FoamParticle) (hspecs : ∀ q ∈ specs, q.active = true)
    (news : List FireParticle) (cap : Nat) (ps : List FireParticle)
    (hcap : ps.length ≤ cap) :
    (foamSpawnList specs pool).length = pool.length ∧
    activeCount (foamSpawnList specs pool) =
      activeCount pool + min specs.length (inactiveCount pool) ∧
    activeCount (foamSpawnList specs pool) ≤ pool.length ∧
    (pool.length - activeCount pool ≤ specs.length →
      activeCount (foamSpawnList specs pool) = pool.length) ∧
    (fireSpawnLoop cap news ps).length =
      ps.length + min news.length (cap - ps.length) ∧
    (fireSpawnLoop cap news ps).length ≤ cap ∧
    (cap - ps.length ≤ news.length →
      (fireSpawnLoop cap news ps).length = cap) ∧
    (∀ (cfg : FireConfig) (fi : ℚ) (e : Vec3)
        (rnds : Nat → FireSpawnRand) (sys : FireSys) (dt : ℚ),
      sys.particles.length ≤ sys.capacity →
      (fireAddParticles cfg fi e rnds sys dt).particles.length ≤
        sys.capacity) ∧
    (∀ (d : FoamData) (dt : ℚ) (o : Vec3) (rnds : Nat → FoamSpawnRand)
        (s : FoamState),
      (foamSpawn d dt o rnds s).particles.length = s.particles.length ∧
        activeCount (foamSpawn d dt o rnds s).particles ≤
          s.particles.length) := by
  have hfoam := foamSpawnList_spec specs pool hspecs
  have hsum := active_add_inactive pool
  have hloop := fireSpawnLoop_length cap news ps
  refine ⟨hfoam.1, hfoam.2, by omega, by omega, hloop, by omega, by omega,
    ?_, ?_⟩
  · intro cfg fi e rnds sys dt hlen
    have h := fireSpawnLoop_length sys.capacity
      ((List.range (fireEmit (sys.rate * rateFactor sys.isFire sys.isSmoke fi)
        dt sys.accumulator).2.toNat).map
        (fun i => mkFireParticle cfg sys e (rnds i))) sys.particles
    simp only [fireAddParticles]
    omega
  · intro d dt o rnds s
    have h := foamSpawnList_spec
      ((List.range (foamEmit d.rate dt s.spawnAcc).2.toNat).map
        (fun i => mkFoamSpawned d o (rnds i))) s.particles
      (by intro q hq
          obtain ⟨i, _, hi⟩ := List.mem_map.mp hq
          rw [← hi]; rfl)
    have hsum2 := active_add_inactive s.particles
    simp only [foamSpawn]
    exact ⟨h.1, by omega⟩

/-- C3 witness: a two-slot pool with one active slot receives a request
for three particles and ends exactly full. -/
theorem pool_capacity_witness :
    activeCount (foamSpawnList (List.replicate 3 activeAtOrigin)
        [activeAtOrigin, defFoamParticle]) =
      [activeAtOrigin, defFoamParticle].length ∧
    (fireSpawnLoop 2 (List.replicate 3 sampleFireP) [sampleFireP]).length
      = 2 := by
  have h := pool_capacity (List.replicate 3 activeAtOrigin)
    [activeAtOrigin, defFoamParticle]
    (by intro q hq; rw [List.eq_of_mem_replicate hq]; rfl)
    (List.replicate 3 sampleFireP) 2 [sampleFireP] (by norm_num)
  refine ⟨h.2.2.2.1 ?_, h.2.2.2.2.2.2.1 ?_⟩
  · simp [activeCount, List.filter_cons, activeAtOrigin, defFoamParticle]
  · simp

/-! ## Per-particle simulation lemmas (foam `_simulate`) -/

lemma foamSimulateP_inactive (d : FoamData) (dt : ℚ) (r : FoamSimRand)
    (p : FoamParticle) (h : p.active = false) :
    foamSimulateP d dt r p = p := by
  simp [foamSimulateP, h]

lemma foamSimulateP_active_mono (d : FoamData) (dt : ℚ) (r : FoamSimRand)
    (p : FoamParticle) (h : (foamSimulateP d dt r p).active = true) :
    p.active = true := by
  by_cases ha : p.active = true
  · exact ha
  · have hf : p.active = false := by simpa using ha
    rw [foamSimulateP_inactive d dt r p hf] at h
    exact h

lemma foamSimulateP_life (d : FoamData) (dt : ℚ) (r : FoamSimRand)
    (p : FoamParticle) (hact : p.active = true) :
    (foamSimulateP d dt r p).life = p.life - dt := by
  simp only [foamSimulateP, hact]
  rw [if_neg (by simp)]
  by_cases hl : p.life - dt ≤ 0
  · simp [hl]
  · simp only [if_neg hl]
    cases hg : p.grounded
    · simp only [Bool.false_eq_true, if_neg]
      simp [foamAirStep]
      split_ifs <;> rfl
    · simp [foamGroundStep]

lemma foamSimulateP_expire (d : FoamData) (dt : ℚ) (r : FoamSimRand)
    (p : FoamParticle) (hact : p.active = true) (h : p.life - dt ≤ 0) :
    (foamSimulateP d dt r p).active = false := by
  simp [foamSimulateP, hact, h]

lemma foamSimulateP_survive (d : FoamData) (dt : ℚ) (r : FoamSimRand)
    (p : FoamParticle) (hact : p.active = true) (h : 0 < p.life - dt) :
    (foamSimulateP d dt r p).active = true := by
  simp only [foamSimulateP, hact]
  rw [if_neg (by simp), if_neg (not_le.mpr h)]
  cases hg : p.grounded
  · simp only [Bool.false_eq_true, if_neg]
    simp [foamAirStep]
    split_ifs <;> simp
  · simp [foamGroundStep]

lemma foamSimulateFrom_length (d : FoamData) (dt : ℚ)
    (rnds : Nat → FoamSimRand) :
    ∀ (k : Nat) (ps : List FoamParticle),
      (foamSimulateFrom d dt rnds k ps).length = ps.length := by
  intro k ps
  induction ps generalizing k with
  | nil => rfl
  | cons p rest ih => simp [foamSimulateFrom, ih]

lemma foamSimulateFrom_getD (d : FoamData) (dt : ℚ)
    (rnds : Nat → FoamSimRand) :
    ∀ (ps : List FoamParticle) (k i : Nat), i < ps.length →
      (foamSimulateFrom d dt rnds k ps).getD i defFoamParticle =
        foamSimulateP d dt (rnds (k + i)) (ps.getD i defFoamParticle) := by
  intro ps
  induction ps with
  | nil => intro k i hi; simp at hi
  | cons p rest ih =>
    intro k i hi
    cases i with
    | zero => simp [foamSimulateFrom, List.getD_cons_zero]
    | succ i =>
      have hi' : i < rest.length := by simpa using hi
      have := ih (k + 1) i hi'
      simp only [foamSimulateFrom, List.getD_cons_succ]
      rw [this]
      have : k + 1 + i = k + (i + 1) := by omega
      rw [this]

lemma foamGeometry_eq (d : FoamData) :
    ∀ ps : List FoamParticle,
      foamGeometry d ps =
        (ps.filter (fun p => p.active)).map (foamGeomEntry d) := by
  intro ps
  induction ps with
  | nil => rfl
  | cons p rest ih =>
    by_cases h : p.active
    · simp [foamGeometry, h, List.filter_cons, ih]
    · simp [foamGeometry, h, List.filter_cons, ih]

/-! ## Fire `_updateParticles` lemmas -/

lemma fireUpdateP_life (fi : ℚ) (cfg : FireConfig) (e : Vec3)
    (sys : FireSys) (dt : ℚ) (r : FireUpdRand) (p : FireParticle) :
    (fireUpdateP fi cfg e sys dt r p).life = p.life := rfl

lemma fireUpdateList_length (fi : ℚ) (cfg : FireConfig) (e : Vec3)
    (sys : FireSys) (dt : ℚ) (rnds : Nat → FireUpdRand) :
    ∀ (k : Nat) (ps : List FireParticle),
      (fireUpdateList fi cfg e sys dt rnds k ps).length = ps.length := by
  intro k ps
  induction ps generalizing k with
  | nil => rfl
  | cons p rest ih => simp [fireUpdateList, ih]

lemma fireUpdateList_mem (fi : ℚ) (cfg : FireConfig) (e : Vec3)
    (sys : FireSys) (dt : ℚ) (rnds : Nat → FireUpdRand) :
    ∀ (k : Nat) (ps : List FireParticle) (q : FireParticle),
      q ∈ fireUpdateList fi cfg e sys dt rnds k ps →
      ∃ p ∈ ps, q.life = p.life := by
  intro k ps
  induction ps generalizing k with
  | nil => intro q hq; simp [fireUpdateList] at hq
  | cons p rest ih =>
    intro q hq
    simp only [fireUpdateList, List.mem_cons] at hq
    rcases hq with hq | hq
    · exact ⟨p, List.mem_cons_self _ _, by rw [hq, fireUpdateP_life]⟩
    · obtain ⟨p', hp', hl⟩ := ih (k + 1) q hq
      exact ⟨p', List.mem_cons_of_mem _ hp', hl⟩

lemma filter_dec_length (dt : ℚ) (ps : List FireParticle) :
    ((ps.map (fun p => { p with life := p.life - dt })).filter
      (fun p => decide (0 < p.life))).length =
      (ps.filter (fun p => decide (dt < p.life))).length := by
  rw [List.filter_map]
  rw [List.length_map]
  congr 1
  apply List.filter_congr
  intro p _
  simp only [Function.comp]
  exact decide_eq_decide.mpr sub_pos

lemma fireUpdateParticles_capacity (fi : ℚ) (cfg : FireConfig)
    (e cam : Vec3) (dt : ℚ) (rnds : Nat → FireUpdRand) (sys : FireSys) :
    (fireUpdateParticles fi cfg e cam dt rnds sys).capacity =
      sys.capacity := by
  unfold fireUpdateParticles
  split_ifs <;> rfl

lemma fireUpdateParticles_length (fi : ℚ) (cfg : FireConfig)
    (e cam : Vec3) (dt : ℚ) (rnds : Nat → FireUpdRand) (sys : FireSys) :
    (fireUpdateParticles fi cfg e cam dt rnds sys).particles.length =
      (sys.particles.filter (fun p => decide (dt < p.life))).length := by
  unfold fireUpdateParticles
  split_ifs
  · rw [(List.perm_insertionSort _ _).length_eq, fireUpdateList_length,
      filter_dec_length]
  · rw [fireUpdateList_length, filter_dec_length]

lemma fireUpdateParticles_life_pos (fi : ℚ) (cfg : FireConfig)
    (e cam : Vec3) (dt : ℚ) (rnds : Nat → FireUpdRand) (sys : FireSys) :
    ∀ q ∈ (fireUpdateParticles fi cfg e cam dt rnds sys).particles,
      0 < q.life := by
  have key : ∀ q ∈ fireUpdateList fi cfg e sys dt rnds 0
      ((sys.particles.map (fun p => { p with life := p.life - dt })).filter
        (fun p => decide (0 < p.life))), 0 < q.life := by
    intro q hq
    obtain ⟨p, hp, hl⟩ := fireUpdateList_mem fi cfg e sys dt rnds 0 _ q hq
    rw [hl]
    have := (List.mem_filter.mp hp).2
    exact of_decide_eq_true this
  intro q hq
  unfold fireUpdateParticles at hq
  split_ifs at hq
  · exact key q (((List.perm_insertionSort _ _).mem_iff).mp hq)
  · exact key q hq

/-! ## C4 — life monotonicity and particle retirement -/

/-- C4: with a positive time step, every active particle's life is
decremented by exactly `dt` (hence strictly decreases).  Foam: a
particle whose decremented life is `≤ 0` is deactivated, its slot
becomes acquirable by `_getSlot`, and the geometry pass writes exactly
the active particles (so the draw range equals the active count).
Fire/smoke: expired particles are filtered out of the array (survivors
are exactly the particles with `dt < life`, and all have positive life),
and the draw range covers exactly the written survivors, capped by the
capacity. -/
theorem life_monotone (d : FoamData) (dt : ℚ) (hdt : 0 < dt)
    (rnds : Nat → FoamSimRand) (pool : List FoamParticle) (i : Nat)
    (hi : i < pool.length)
    (hact : (pool.getD i defFoamParticle).active = true) :
    ((foamSimulate d dt rnds pool).getD i defFoamParticle).life =
      (pool.getD i defFoamParticle).life - dt ∧
    ((foamSimulate d dt rnds pool).getD i defFoamParticle).life <
      (pool.getD i defFoamParticle).life ∧
    ((pool.getD i defFoamParticle).life - dt ≤ 0 →
      ((foamSimulate d dt rnds pool).getD i defFoamParticle).active =
        false) ∧
    (((foamSimulate d dt rnds pool).getD i defFoamParticle).active =
        false →
      foamHasFreeSlot (foamSimulate d dt rnds pool) = true) ∧
    foamGeometry d (foamSimulate d dt rnds pool) =
      ((foamSimulate d dt rnds pool).filter (fun p => p.active)).map
        (foamGeomEntry d) ∧
    (foamGeometry d (foamSimulate d dt rnds pool)).length =
      activeCount (foamSimulate d dt rnds pool) ∧
    (∀ (fi : ℚ) (cfg : FireConfig) (e cam : Vec3)
        (rnds2 : Nat → FireUpdRand) (sys : FireSys),
      (fireUpdateParticles fi cfg e cam dt rnds2 sys).particles.length =
        (sys.particles.filter (fun p => decide (dt < p.life))).length ∧
      (∀ q ∈ (fireUpdateParticles fi cfg e cam dt rnds2 sys).particles,
        0 < q.life) ∧
      (fireUpdateParticles fi cfg e cam dt rnds2 sys).capacity =
        sys.capacity ∧
      (fireGeometry (fireUpdateParticles fi cfg e cam dt rnds2 sys)).2 =
        min (fireUpdateParticles fi cfg e cam dt rnds2 sys).particles.length
          sys.capacity ∧
      (fireGeometry (fireUpdateParticles fi cfg e cam dt rnds2 sys)).1.length
        = (fireGeometry (fireUpdateParticles fi cfg e cam dt rnds2 sys)).2) := by
  have hget := foamSimulateFrom_getD d dt rnds pool 0 i hi
  rw [foamSimulate] at *
  have hlife : ((foamSimulateFrom d dt rnds 0 pool).getD i
      defFoamParticle).life = (pool.getD i defFoamParticle).life - dt := by
    rw [hget]
    exact foamSimulateP_life _ _ _ _ hact
  refine ⟨hlife, by rw [hlife]; linarith, ?_, ?_, foamGeometry_eq d _, ?_, ?_⟩
  · intro hexp
    rw [hget]
    exact foamSimulateP_expire _ _ _ _ hact hexp
  · intro hinact
    have hmem : (foamSimulateFrom d dt rnds 0 pool).getD i defFoamParticle ∈
        foamSimulateFrom d dt rnds 0 pool := by
      have hlen : i < (foamSimulateFrom d dt rnds 0 pool).length := by
        rw [foamSimulateFrom_length]; exact hi
      rw [List.getD_eq_getElem _ defFoamParticle hlen]
      exact List.getElem_mem hlen
    rw [foamHasFreeSlot, List.any_eq_true]
    exact ⟨_, hmem, by rw [hinact]; rfl⟩
  · rw [foamGeometry_eq d]
    simp [activeCount]
  · intro fi cfg e cam rnds2 sys
    refine ⟨fireUpdateParticles_length fi cfg e cam dt rnds2 sys,
      fireUpdateParticles_life_pos fi cfg e cam dt rnds2 sys,
      fireUpdateParticles_capacity fi cfg e cam dt rnds2 sys, ?_, ?_⟩
    · rw [fireGeometry, fireUpdateParticles_capacity]
    · rw [fireGeometry]
      simp only [List.length_map, List.length_take]
      rw [min_eq_left (Nat.min_le_left _ _)]

/-- C4 witness: one tick on a one-particle pool. -/
theorem life_monotone_witness :
    ((foamSimulate sampleFoamData (1 / 20) (fun _ => sampleSimRand)
        [pFalling]).getD 0 defFoamParticle).life =
      (([pFalling] : List FoamParticle).getD 0 defFoamParticle).life -
        1 / 20 ∧
    ((foamSimulate sampleFoamData (1 / 20) (fun _ => sampleSimRand)
        [pFalling]).getD 0 defFoamParticle).life <
      (([pFalling] : List FoamParticle).getD 0 defFoamParticle).life :=
  ⟨(life_monotone sampleFoamData (1 / 20) (by norm_num)
      (fun _ => sampleSimRand) [pFalling] 0 (by norm_num) rfl).1,
   (life_monotone sampleFoamData (1 / 20) (by norm_num)
      (fun _ => sampleSimRand) [pFalling] 0 (by norm_num) rfl).2.1⟩

/-! ## C7 — one-way grounding of foam particles -/

/-- C7: for a surviving active foam particle, `_simulate` decrements
life and: if the particle was already grounded it stays grounded with
`velocity.y` forced to 0 and `position.y` pinned to `floorY + 0.005`
(and `groundTime` accumulating); if it was airborne, it becomes grounded
exactly when the integrated position's `y` reaches or crosses the floor
plane, and on that transition tick `position.y` is already pinned.
Grounding is therefore one-way: no branch of `_simulate` ever clears
`grounded`. -/
theorem foam_grounded_one_way (d : FoamData) (dt : ℚ) (r : FoamSimRand)
    (p : FoamParticle) (hact : p.active = true)
    (hsurv : 0 < p.life - dt) :
    (foamSimulateP d dt r p).active = true ∧
    (foamSimulateP d dt r p).life = p.life - dt ∧
    (p.grounded = true →
      (foamSimulateP d dt r p).grounded = true ∧
      (foamSimulateP d dt r p).vel.y = 0 ∧
      (foamSimulateP d dt r p).pos.y = d.floorY + 1 / 200 ∧
      (foamSimulateP d dt r p).groundTime = p.groundTime + dt) ∧
    (p.grounded = false →
      ((foamSimulateP d dt r p).grounded = true ↔
        (p.pos.addScaled
          (foamAirVel d dt r { p with life := p.life - dt }) dt).y ≤
          d.floorY) ∧
      ((p.pos.addScaled
          (foamAirVel d dt r { p with life := p.life - dt }) dt).y ≤
          d.floorY →
        (foamSimulateP d dt r p).pos.y = d.floorY + 1 / 200)) := by
  refine ⟨foamSimulateP_survive d dt r p hact hsurv,
    foamSimulateP_life d dt r p hact, ?_, ?_⟩
  · intro hg
    simp only [foamSimulateP, hact]
    rw [if_neg (by simp), if_neg (not_le.mpr hsurv)]
    simp [hg, foamGroundStep]
  · intro hg
    simp only [foamSimulateP]
    rw [if_neg (by simp [hact]), if_neg (not_le.mpr hsurv),
      if_neg (by simp [hg])]
    simp only [foamAirStep]
    by_cases hcol :
        (p.pos.addScaled
          (foamAirVel d dt r { p with life := p.life - dt }) dt).y ≤
          d.floorY
    · rw [if_pos (by simpa using hcol)]
      exact ⟨by simpa using hcol, fun _ => by simp⟩
    · rw [if_neg (by simpa using hcol)]
      exact ⟨iff_of_false (by simp [hg]) hcol, fun h => absurd h hcol⟩

/-- C7 witness: one tick on a grounded particle keeps it grounded,
pinned and with zero vertical velocity. -/
theorem foam_grounded_one_way_witness :
    (foamSimulateP sampleFoamData (1 / 20) sampleSimRand
      pGrounded).grounded = true ∧
    (foamSimulateP sampleFoamData (1 / 20) sampleSimRand
      pGrounded).vel.y = 0 ∧
    (foamSimulateP sampleFoamData (1 / 20) sampleSimRand
      pGrounded).pos.y = sampleFoamData.floorY + 1 / 200 ∧
    (foamSimulateP sampleFoamData (1 / 20) sampleSimRand
      pGrounded).groundTime = pGrounded.groundTime + 1 / 20 :=
  (foam_grounded_one_way sampleFoamData (1 / 20) sampleSimRand pGrounded
    rfl (by norm_num [pGrounded])).2.2.1 rfl

/-! ## C8 — spline evaluation -/

lemma getValueAt_of_findIdx {α : Type} (lerpFn : ℚ → α → α → α)
    (dflt : α) (ps : List (ℚ × α)) (t : ℚ) (k : Nat)
    (hk : ps.findIdx (fun q => decide (t ≤ q.1)) = k) :
    getValueAt lerpFn dflt ps t =
      if k - 1 = min (ps.length - 1) (k - 1 + 1) then
        (ps.getD (k - 1) (0, dflt)).2
      else
        lerpFn ((t - (ps.getD (k - 1) (0, dflt)).1) /
            ((ps.getD (min (ps.length - 1) (k - 1 + 1)) (0, dflt)).1 -
              (ps.getD (k - 1) (0, dflt)).1))
          (ps.getD (k - 1) (0, dflt)).2
          (ps.getD (min (ps.length - 1) (k - 1 + 1)) (0, dflt)).2 := by
  simp only [getValueAt, hk]

/-- C8 counterexample: on the two-point spline `(0,0), (1,10)` the
source's `getValueAt(-1)` returns `-10` — it linearly extrapolates the
first segment below the defined range instead of clamping to the first
control point's value `0`. -/
theorem spline_extrapolates_below :
    getValueAt lerpScalar 0 [((0 : ℚ), (0 : ℚ)), (1, 10)] (-1) = -10 ∧
    getValueAt lerpScalar 0 [((0 : ℚ), (0 : ℚ)), (1, 10)] (-1) ≠
      (([((0 : ℚ), (0 : ℚ)), (1, 10)].getD 0 (0, 0)).2 : ℚ) := by
  have hfind : List.findIdx (fun q => decide ((-1 : ℚ) ≤ q.1))
      [((0 : ℚ), (0 : ℚ)), (1, 10)] = 0 := by
    rw [List.findIdx_cons]
    rw [show (decide ((-1 : ℚ) ≤ (((0 : ℚ), (0 : ℚ)) : ℚ × ℚ).1)) = true
      from decide_eq_true (by norm_num)]
    rfl
  have hval : getValueAt lerpScalar 0 [((0 : ℚ), (0 : ℚ)), (1, 10)] (-1) =
      -10 := by
    rw [getValueAt_of_findIdx lerpScalar 0 _ _ 0 hfind]
    norm_num [lerpScalar, List.getD_cons_zero, List.getD_cons_succ]
  refine ⟨hval, ?_⟩
  rw [hval]
  norm_num [List.getD_cons_zero]

/-- C8 (amended): for a spline of at least 2 control points with
non-decreasing `t` values, `getValueAt(t)` returns the piecewise-linear
interpolation of the control points for `t` inside the defined range,
clamps to the last control point's value for `t` above the range, and
for `t` below the range linearly extrapolates along the first segment
(in particular it still returns the first control point's value exactly
at the range's lower end, but NOT below it). -/
theorem spline_getValueAt_spec (ps : List (ℚ × ℚ)) (t : ℚ)
    (h2 : 2 ≤ ps.length)
    (hmono : ∀ i, i + 1 < ps.length →
      (ps.getD i (0, 0)).1 ≤ (ps.getD (i + 1) (0, 0)).1) :
    ((ps.getD (ps.length - 1) (0, 0)).1 < t →
      getValueAt lerpScalar 0 ps t = (ps.getD (ps.length - 1) (0, 0)).2) ∧
    (∀ j, j + 1 < ps.length → (ps.getD j (0, 0)).1 < t →
      t ≤ (ps.getD (j + 1) (0, 0)).1 →
      getValueAt lerpScalar 0 ps t =
        lerpScalar ((t - (ps.getD j (0, 0)).1) /
            ((ps.getD (j + 1) (0, 0)).1 - (ps.getD j (0, 0)).1))
          (ps.getD j (0, 0)).2 (ps.getD (j + 1) (0, 0)).2) ∧
    (t ≤ (ps.getD 0 (0, 0)).1 →
      getValueAt lerpScalar 0 ps t =
        lerpScalar ((t - (ps.getD 0 (0, 0)).1) /
            ((ps.getD 1 (0, 0)).1 - (ps.getD 0 (0, 0)).1))
          (ps.getD 0 (0, 0)).2 (ps.getD 1 (0, 0)).2) := by
  have hmono' := getD_mono_of_adjacent ps hmono
  refine ⟨?_, ?_, ?_⟩
  · intro hlast
    have hfind : ps.findIdx (fun q => decide (t ≤ q.1)) = ps.length := by
      apply findIdx_eq_length_of_getD (0, 0)
      intro i hi
      apply decide_eq_false
      apply not_le.mpr
      exact lt_of_le_of_lt (hmono' i (ps.length - 1) (by omega) (by omega))
        hlast
    rw [getValueAt_of_findIdx lerpScalar 0 _ _ _ hfind]
    rw [if_pos (min_eq_left (Nat.le_succ _)).symm]
  · intro j hj hlo hhi
    have hfind : ps.findIdx (fun q => decide (t ≤ q.1)) = j + 1 := by
      apply findIdx_eq_of_getD (0, 0) _ ps (j + 1) hj
      · intro i hi
        apply decide_eq_false
        apply not_le.mpr
        exact lt_of_le_of_lt (hmono' i j (by omega) (by omega)) hlo
      · exact decide_eq_true hhi
    rw [getValueAt_of_findIdx lerpScalar 0 _ _ _ hfind]
    rw [show j + 1 - 1 = j from rfl]
    rw [min_eq_right (by omega : j + 1 ≤ ps.length - 1)]
    rw [if_neg (by omega : ¬j = j + 1)]
  · intro hlow
    have hfind : ps.findIdx (fun q => decide (t ≤ q.1)) = 0 := by
      apply findIdx_eq_of_getD (0, 0) _ ps 0 (by omega)
      · intro i hi; omega
      · exact decide_eq_true hlow
    rw [getValueAt_of_findIdx lerpScalar 0 _ _ _ hfind]
    rw [show (0 : Nat) - 1 = 0 from rfl]
    rw [min_eq_right (by omega : 0 + 1 ≤ ps.length - 1)]
    rw [if_neg (by omega : ¬(0 : Nat) = 0 + 1)]

/-- C8 witness: interior interpolation on the spline `(0,0), (1,10)` at
`t = 1/2` yields 5. -/
theorem spline_getValueAt_spec_witness :
    getValueAt lerpScalar 0 [((0 : ℚ), (0 : ℚ)), (1, 10)] (1 / 2) = 5 := by
  have h := (spline_getValueAt_spec [((0 : ℚ), (0 : ℚ)), (1, 10)] (1 / 2)
    (by norm_num)
    (by intro i hi
        have hi0 : i = 0 := by simp at hi; omega
        subst hi0
        norm_num [List.getD_cons_zero, List.getD_cons_succ])).2.1 0
    (by norm_num)
    (by norm_num [List.getD_cons_zero])
    (by norm_num [List.getD_cons_zero, List.getD_cons_succ])
  rw [h]
  norm_num [lerpScalar, List.getD_cons_zero, List.getD_cons_succ]

/-! ## C5 — emission accumulator -/

lemma fireEmitRun_invariant (er dt : ℚ) (her : 0 < er) :
    ∀ N : Nat,
      ((fireEmitRun er dt N).2 : ℚ) + (fireEmitRun er dt N).1 * er =
        er * N * dt ∧
      0 ≤ (fireEmitRun er dt N).1 * er ∧
      (fireEmitRun er dt N).1 * er < 1 := by
  intro N
  induction N with
  | zero => simp [fireEmitRun]
  | succ n ih =>
    obtain ⟨h1, h2, h3⟩ := ih
    have hne : er ≠ 0 := ne_of_gt her
    have hstep : fireEmitRun er dt (n + 1) =
        ((fireEmitRun er dt n).1 + dt -
          (⌊((fireEmitRun er dt n).1 + dt) * er⌋ : ℚ) / er,
         (fireEmitRun er dt n).2 + ⌊((fireEmitRun er dt n).1 + dt) * er⌋) := by
      simp [fireEmitRun, fireEmit, if_neg (not_le.mpr her)]
    have hstep1 : (fireEmitRun er dt (n + 1)).1 =
        (fireEmitRun er dt n).1 + dt -
          (⌊((fireEmitRun er dt n).1 + dt) * er⌋ : ℚ) / er := by
      rw [hstep]
    have hstep2 : (fireEmitRun er dt (n + 1)).2 =
        (fireEmitRun er dt n).2 +
          ⌊((fireEmitRun er dt n).1 + dt) * er⌋ := by
      rw [hstep]
    rw [hstep1, hstep2]
    have key : (((fireEmitRun er dt n).1 + dt) -
        (⌊((fireEmitRun er dt n).1 + dt) * er⌋ : ℚ) / er) * er =
        Int.fract (((fireEmitRun er dt n).1 + dt) * er) := by
      rw [Int.fract]
      field_simp
    refine ⟨?_, ?_, ?_⟩
    · rw [key, Int.fract]
      push_cast
      linear_combination h1
    · rw [key]; exact Int.fract_nonneg _
    · rw [key]; exact Int.fract_lt_one _

/-- C5 counterexample: the fire emission step accumulates **time** and
floors `acc * effectiveRate`, which differs from the claimed
"add `effectiveRate * dt`, spawn `floor(accumulator)`" policy once the
effective rate changes between ticks.  With base rate 20, two 0.05 s
ticks at intensities 0.5 then 1.0 (effective rates 10 then 20), the code
spawns 2 particles on the second tick while the claimed accumulator
spawns 1. -/
theorem emission_accumulator_mismatch :
    sampleFireSys.rate * rateFactor sampleFireSys.isFire
        sampleFireSys.isSmoke (1 / 2) = 10 ∧
    sampleFireSys.rate * rateFactor sampleFireSys.isFire
        sampleFireSys.isSmoke 1 = 20 ∧
    (fireEmit 20 (1 / 20) (fireEmit 10 (1 / 20) 0).1).2 = 2 ∧
    (specAccumulate 20 (1 / 20) (specAccumulate 10 (1 / 20) 0).1).2 = 1 ∧
    (fireEmit 20 (1 / 20) (fireEmit 10 (1 / 20) 0).1).2 ≠
      (specAccumulate 20 (1 / 20) (specAccumulate 10 (1 / 20) 0).1).2 := by
  have hr1 : sampleFireSys.rate * rateFactor sampleFireSys.isFire
      sampleFireSys.isSmoke (1 / 2) = 10 := by
    norm_num [sampleFireSys, rateFactor]
  have hr2 : sampleFireSys.rate * rateFactor sampleFireSys.isFire
      sampleFireSys.isSmoke 1 = 20 := by
    norm_num [sampleFireSys, rateFactor]
  have hf1 : ⌊(0 + 1 / 20 : ℚ) * 10⌋ = 0 := by
    rw [show ((0 : ℚ) + 1 / 20) * 10 = 1 / 2 by norm_num]
    norm_num [Int.floor_eq_iff]
  have h1 : (fireEmit 10 (1 / 20) 0).1 = 1 / 20 := by
    simp only [fireEmit, if_neg (by norm_num : ¬(10 : ℚ) ≤ 0)]
    rw [hf1]
    norm_num
  have hf2 : ⌊(1 / 20 + 1 / 20 : ℚ) * 20⌋ = 2 := by
    rw [show ((1 : ℚ) / 20 + 1 / 20) * 20 = 2 by norm_num]
    norm_num
  have h2 : (fireEmit 20 (1 / 20) (1 / 20 : ℚ)).2 = 2 := by
    simp only [fireEmit, if_neg (by norm_num : ¬(20 : ℚ) ≤ 0)]
    rw [hf2]
  have hf3 : ⌊(0 + 10 * (1 / 20) : ℚ)⌋ = 0 := by
    rw [show ((0 : ℚ) + 10 * (1 / 20)) = 1 / 2 by norm_num]
    norm_num [Int.floor_eq_iff]
  have h3 : (specAccumulate 10 (1 / 20) 0).1 = 1 / 2 := by
    simp only [specAccumulate, if_neg (by norm_num : ¬(10 : ℚ) ≤ 0)]
    rw [hf3]
    norm_num
  have hf4 : ⌊(1 / 2 + 20 * (1 / 20) : ℚ)⌋ = 1 := by
    rw [show ((1 : ℚ) / 2 + 20 * (1 / 20)) = 3 / 2 by norm_num]
    norm_num [Int.floor_eq_iff]
  have h4 : (specAccumulate 20 (1 / 20) (1 / 2 : ℚ)).2 = 1 := by
    simp only [specAccumulate, if_neg (by norm_num : ¬(20 : ℚ) ≤ 0)]
    rw [hf4]
  rw [h1, h3]
  exact ⟨hr1, hr2, h2, h4, by rw [h2, h4]; norm_num⟩

/-- C5 (amended): the foam `_spawn` step is exactly the claimed policy —
it adds `rate * dt` to a fractional accumulator, spawns
`floor(accumulator)` and keeps the fractional remainder.  The fire
`_addParticles` step instead accumulates elapsed **time**, spawns
`floor(acc * effectiveRate)` and subtracts `n / effectiveRate`; this
agrees with the claimed policy while the effective rate is constant — at
constant rate `R > 0` the total spawned over `N` ticks of length `dt`
lies within one particle of `R * N * dt` — but its per-tick counts can
differ from the claimed policy when the effective rate changes between
ticks.  Whenever `effectiveRate ≤ 0` the fire accumulator is reset to 0
and nothing spawns (the foam step has no such branch; its rate is the
fixed schema constant). -/
theorem emission_accumulator_spec :
    (∀ rate dt acc : ℚ,
      (foamEmit rate dt acc).1 =
        (acc + rate * dt) - ⌊acc + rate * dt⌋ ∧
      (foamEmit rate dt acc).2 = ⌊acc + rate * dt⌋) ∧
    (∀ er dt acc : ℚ, er ≤ 0 → fireEmit er dt acc = (0, 0)) ∧
    (∀ er dt : ℚ, 0 < er → ∀ N : Nat,
      er * N * dt - 1 < ((fireEmitRun er dt N).2 : ℚ) ∧
      ((fireEmitRun er dt N).2 : ℚ) ≤ er * N * dt) := by
  refine ⟨?_, ?_, ?_⟩
  · intro rate dt acc
    by_cases h : ⌊acc + rate * dt⌋ = 0
    · simp [foamEmit, h]
    · simp [foamEmit, h]
  · intro er dt acc h
    simp [fireEmit, if_pos h]
  · intro er dt her N
    obtain ⟨h1, h2, h3⟩ := fireEmitRun_invariant er dt her N
    constructor
    · linarith
    · linarith

/-- C5 witness: the reset branch at a negative effective rate, and the
within-one-particle bound after three ticks at rate 1. -/
theorem emission_accumulator_spec_witness :
    fireEmit (-5) (1 / 20) (3 / 10) = (0, 0) ∧
    ((1 : ℚ) * ((3 : ℕ) : ℚ) * (1 / 20) - 1 <
        ((fireEmitRun 1 (1 / 20) 3).2 : ℚ) ∧
      ((fireEmitRun 1 (1 / 20) 3).2 : ℚ) ≤
        (1 : ℚ) * ((3 : ℕ) : ℚ) * (1 / 20)) :=
  ⟨emission_accumulator_spec.2.1 (-5) (1 / 20) (3 / 10) (by norm_num),
   emission_accumulator_spec.2.2 1 (1 / 20) (by norm_num) 3⟩

/-! ## C9 — `stop()` drains gracefully -/

/-- C9: `start()`/`stop()` write only the `emitting` flag.  A tick taken
while not emitting performs no spawn at all: the resulting pool is
exactly `_simulate` applied to the previous pool (so no particle is
activated, every still-active particle had been active before and has
its life decremented), and the geometry buffers are still rewritten from
the simulated pool. -/
theorem foam_stop_drains (d : FoamData) (delta : ℚ) (origin : Vec3)
    (spawnRnds : Nat → FoamSpawnRand) (simRnds : Nat → FoamSimRand)
    (s : FoamState) (h : s.emitting = false) :
    (foamTick d delta origin spawnRnds simRnds s).1.particles =
      foamSimulate d (foamDt delta) simRnds s.particles ∧
    (foamTick d delta origin spawnRnds simRnds s).1.emitting = false ∧
    (foamTick d delta origin spawnRnds simRnds s).1.spawnAcc =
      s.spawnAcc ∧
    (foamTick d delta origin spawnRnds simRnds s).2 =
      foamGeometry d (foamSimulate d (foamDt delta) simRnds s.particles) ∧
    (∀ i : Nat,
      (((foamTick d delta origin spawnRnds simRnds s).1.particles).getD i
        defFoamParticle).active = true →
      ((s.particles.getD i defFoamParticle).active = true ∧
        (((foamTick d delta origin spawnRnds simRnds s).1.particles).getD i
          defFoamParticle).life =
          (s.particles.getD i defFoamParticle).life - foamDt delta)) ∧
    (foamStop s).particles = s.particles ∧
    (foamStop s).spawnAcc = s.spawnAcc ∧ (foamStop s).emitting = false ∧
    (foamStart s).particles = s.particles ∧
    (foamStart s).spawnAcc = s.spawnAcc ∧
    (foamStart s).emitting = true := by
  have htick : foamTick d delta origin spawnRnds simRnds s =
      ({ s with particles :=
          foamSimulate d (foamDt delta) simRnds s.particles },
       foamGeometry d (foamSimulate d (foamDt delta) simRnds s.particles)) := by
    simp [foamTick, h]
  refine ⟨by rw [htick], by rw [htick]; exact h, by rw [htick], by rw [htick],
    ?_, rfl, rfl, rfl, rfl, rfl, rfl⟩
  intro i hi
  rw [htick] at hi ⊢
  simp only at hi ⊢
  by_cases hlen : i < s.particles.length
  · rw [foamSimulate, foamSimulateFrom_getD d (foamDt delta) simRnds
      s.particles 0 i hlen] at hi ⊢
    have hact := foamSimulateP_active_mono _ _ _ _ hi
    exact ⟨hact, foamSimulateP_life _ _ _ _ hact⟩
  · exfalso
    have hlen' : s.particles.length ≤ i := Nat.le_of_not_lt hlen
    rw [foamSimulate] at hi
    rw [List.getD_eq_default] at hi
    · simp [defFoamParticle] at hi
    · rw [foamSimulateFrom_length]; exact hlen'

/-- C9 witness: a stopped one-particle system. -/
theorem foam_stop_drains_witness :
    (foamTick sampleFoamData 50 ⟨0, 0, 0⟩ (fun _ => sampleSpawnDraw)
      (fun _ => sampleSimRand) sampleStoppedState).1.particles =
      foamSimulate sampleFoamData (foamDt 50) (fun _ => sampleSimRand)
        sampleStoppedState.particles ∧
    (foamStop sampleStoppedState).particles =
      sampleStoppedState.particles :=
  ⟨(foam_stop_drains sampleFoamData 50 ⟨0, 0, 0⟩ (fun _ => sampleSpawnDraw)
      (fun _ => sampleSimRand) sampleStoppedState rfl).1,
   (foam_stop_drains sampleFoamData 50 ⟨0, 0, 0⟩ (fun _ => sampleSpawnDraw)
      (fun _ => sampleSimRand) sampleStoppedState rfl).2.2.2.2.2.1⟩

end FireVR
